import Mathlib

/-!
Shallow embedding of the two generator scripts of this repository:

* `radical-multiplicity/visualization_wireframe copy.py` — the "topology"
  variant: `constraint_surface` and `generate_trajectory_through_landscape`
  (with its helpers `linspace`, `clip` for `np.clip`, `reflectIdx` and
  `uniform_filter1d` for `scipy.ndimage.uniform_filter1d` in its default
  boundary mode).
* `sensus-ex-machina/feltness_space.py` — the "feltness" variant:
  `feltness_surface`, written as the sum of its eight named terms exactly as
  the source computes them.

Machine floats are modelled as real numbers; NumPy arrays as `List ℝ`.
-/

open Real

noncomputable section

namespace Wireframe

/-- `constraint_surface(t, y)` from the topology variant, line for line:
normalizations `t_norm = t / 30.0`, `y_norm = y * 2.0`, then the sum of
four sinusoidal terms and the radial component `-0.15 * (...) * 0.05`. -/
def constraint_surface (t y : ℝ) : ℝ :=
  let t_norm := t / 30.0
  let y_norm := y * 2.0
  0.5 * Real.sin (t_norm * 0.8) * Real.cos (y_norm * 0.6)
    + 0.3 * Real.cos (t_norm * 1.5 + y_norm * 1.2)
    + 0.2 * Real.sin (t_norm * 3.0 - y_norm * 2.0)
    + 0.25 * Real.sin (t_norm * 2.0) * Real.sin (y_norm * 1.5)
    + -0.15 * ((t_norm - 3.0) ^ 2 + (y_norm - 2.0) ^ 2) * 0.05

/-- `np.linspace(start, stop, num)` with `endpoint=True`: `num` evenly spaced
samples `start + k * (stop - start) / (num - 1)`; for `num = 1` NumPy returns
`[start]`, which the formula also yields since division by zero is zero. -/
def linspace (start stop : ℝ) (num : ℕ) : List ℝ :=
  (List.range num).map (fun (k : ℕ) => start + (k : ℝ) * (stop - start) / ((num : ℝ) - 1))

/-- `np.clip(x, lo, hi)`. -/
def clip (lo hi x : ℝ) : ℝ := min (max x lo) hi

/-- Index reflection of `scipy.ndimage`'s default boundary mode `reflect`
(pattern `(d c b a | a b c d | d c b a)`): fold an out-of-range index `j`
into `[0, n)` with period `2 * n`. -/
def reflectIdx (n : ℕ) (j : ℤ) : ℕ :=
  let m := (j % (2 * (n : ℤ))).toNat
  if m < n then m else 2 * n - 1 - m

/-- `scipy.ndimage.uniform_filter1d(input, size)` with default `origin = 0`:
output `i` is the mean of the window `input[i - size/2 .. i - size/2 + size - 1]`
(integer division), out-of-range indices reflected. -/
def uniform_filter1d (input : List ℝ) (size : ℕ) : List ℝ :=
  (List.range input.length).map (fun (i : ℕ) =>
    (∑ k ∈ Finset.range size,
      input.getD (reflectIdx input.length ((i : ℤ) - (size / 2 : ℕ) + (k : ℤ))) 0)
    / (size : ℝ))

/-- `y_start = 1.0 + (trajectory_id - 2) * 0.2`. -/
def y_start (trajectory_id : ℤ) : ℝ := 1.0 + ((trajectory_id : ℝ) - 2) * 0.2

/-- The raw (pre-clamp, pre-smoothing) axis-2 value at time `t`: base offset,
oscillation `amplitude * sin(base_freq * t + phase)` with `base_freq = 0.015`,
`phase = trajectory_id * 0.8`, `amplitude = 0.4`, plus the drift term
`(trajectory_id - 2) * 0.1 * (t / 180.0)`. -/
def y_raw (trajectory_id : ℤ) (t : ℝ) : ℝ :=
  y_start trajectory_id + 0.4 * Real.sin (0.015 * t + (trajectory_id : ℝ) * 0.8)
    + ((trajectory_id : ℝ) - 2) * 0.1 * (t / 180.0)

/-- `generate_trajectory_through_landscape(trajectory_id, num_points)`:
`t = linspace(0, 180, num_points)`; `y` from `y_raw`, clipped to `[0.2, 1.8]`,
then smoothed by `uniform_filter1d(_, size=10)`;
`z = constraint_surface(t, y) + 0.15` elementwise. -/
def generate_trajectory_through_landscape (trajectory_id : ℤ) (num_points : ℕ) :
    List ℝ × List ℝ × List ℝ :=
  let t := linspace 0 180 num_points
  let y := uniform_filter1d ((t.map (y_raw trajectory_id)).map (clip 0.2 1.8)) 10
  let z := List.zipWith (fun tk yk => constraint_surface tk yk + 0.15) t y
  (t, y, z)

end Wireframe

namespace Feltness

/-- `base = 0.3 * embodiment + 0.3 * persistence`. -/
def base (embodiment persistence : ℝ) : ℝ := 0.3 * embodiment + 0.3 * persistence

/-- `synergy = 0.5 * embodiment * persistence`. -/
def synergy (embodiment persistence : ℝ) : ℝ := 0.5 * embodiment * persistence

/-- `uncanny_dip`: the uncanny-valley dip at `(0.6, 0.2)`. -/
def uncanny_dip (embodiment persistence : ℝ) : ℝ :=
  -0.3 * Real.exp (-((embodiment - 0.6) ^ 2 / 0.05 + (persistence - 0.2) ^ 2 / 0.08))

/-- `ava_peak`: local maximum at `(0.85, 0.5)`. -/
def ava_peak (embodiment persistence : ℝ) : ℝ :=
  0.2 * Real.exp (-((embodiment - 0.85) ^ 2 / 0.03 + (persistence - 0.5) ^ 2 / 0.05))

/-- `pet_peak`: local maximum at `(0.6, 0.8)`. -/
def pet_peak (embodiment persistence : ℝ) : ℝ :=
  0.15 * Real.exp (-((embodiment - 0.6) ^ 2 / 0.04 + (persistence - 0.8) ^ 2 / 0.04))

/-- `human_peak`: global maximum at `(0.95, 0.95)`. -/
def human_peak (embodiment persistence : ℝ) : ℝ :=
  0.3 * Real.exp (-((embodiment - 0.95) ^ 2 / 0.02 + (persistence - 0.95) ^ 2 / 0.02))

/-- `tool_valley`: valley at `(0.1, 0.1)`. -/
def tool_valley (embodiment persistence : ℝ) : ℝ :=
  -0.1 * Real.exp (-((embodiment - 0.1) ^ 2 / 0.05 + (persistence - 0.1) ^ 2 / 0.05))

/-- `ripples`: the two sinusoidal texture terms. -/
def ripples (embodiment persistence : ℝ) : ℝ :=
  0.05 * Real.sin (embodiment * 8) * Real.cos (persistence * 6)
    + 0.03 * Real.sin (embodiment * 12 + persistence * 10)

/-- `feltness_surface(embodiment, persistence)`: the sum of the eight named
terms, exactly as the source builds `feltness`. -/
def feltness_surface (embodiment persistence : ℝ) : ℝ :=
  base embodiment persistence + synergy embodiment persistence
    + uncanny_dip embodiment persistence + ava_peak embodiment persistence
    + pet_peak embodiment persistence + human_peak embodiment persistence
    + tool_valley embodiment persistence + ripples embodiment persistence

/-- A term is "Gaussian-shaped" when it is
`amplitude * exp(-((a-center_a)^2/width_a + (b-center_b)^2/width_b))`
for some fixed amplitude, centers and widths. -/
def IsGaussianTerm (f : ℝ → ℝ → ℝ) : Prop :=
  ∃ A ca wa cb wb : ℝ, ∀ a b : ℝ,
    f a b = A * Real.exp (-((a - ca) ^ 2 / wa + (b - cb) ^ 2 / wb))

end Feltness



open Wireframe Feltness

theorem reflectIdx_lt (n : ℕ) (hn : 0 < n) (j : ℤ) : reflectIdx n j < n := by
  unfold reflectIdx
  have h2n : (0:ℤ) < 2 * (n:ℤ) := by positivity
  have hlt : j % (2 * (n:ℤ)) < 2 * (n:ℤ) := Int.emod_lt_of_pos j h2n
  have hm : (j % (2 * (n:ℤ))).toNat < 2 * n := by omega
  simp only []
  split <;> omega

theorem reflectIdx_one (j : ℤ) : reflectIdx 1 j = 0 := by
  unfold reflectIdx
  have h2 : (0:ℤ) < 2 * ((1:ℕ):ℤ) := by norm_num
  have hlt : j % (2 * ((1:ℕ):ℤ)) < 2 * ((1:ℕ):ℤ) := Int.emod_lt_of_pos j h2
  have hge : 0 ≤ j % (2 * ((1:ℕ):ℤ)) := Int.emod_nonneg j (by norm_num)
  have hm : (j % (2 * ((1:ℕ):ℤ))).toNat < 2 := by omega
  simp only []
  split <;> omega

theorem linspace_length (a b : ℝ) (n : ℕ) : (linspace a b n).length = n := by
  simp [linspace]

theorem linspace_head (a b : ℝ) (n : ℕ) (hn : 0 < n) : (linspace a b n).head? = some a := by
  unfold linspace
  obtain ⟨m, rfl⟩ := Nat.exists_eq_succ_of_ne_zero hn.ne'
  rw [List.range_succ_eq_map]
  simp

theorem linspace_getLast (a b : ℝ) (n : ℕ) (hn : 2 ≤ n) :
    (linspace a b n).getLast? = some b := by
  unfold linspace
  obtain ⟨m, rfl⟩ := Nat.exists_eq_succ_of_ne_zero (by omega : n ≠ 0)
  rw [List.range_succ, List.map_append, List.getLast?_append]
  simp only [List.map_cons, List.map_nil, List.getLast?_singleton]
  have hm : (m : ℝ) ≠ 0 := by
    have h1 : (1:ℕ) ≤ m := by omega
    exact_mod_cast Nat.one_le_iff_ne_zero.mp h1
  push_cast
  field_simp

theorem linspace_pairwise (a b : ℝ) (n : ℕ) (hab : a < b) (hn : 2 ≤ n) :
    (linspace a b n).Pairwise (· < ·) := by
  unfold linspace
  rw [List.pairwise_map]
  refine List.Pairwise.imp_of_mem ?_ (List.pairwise_lt_range n)
  intro i j hi hj hij
  have hden : (0:ℝ) < (n : ℝ) - 1 := by
    have h2 : (2:ℝ) ≤ (n:ℝ) := by exact_mod_cast hn
    linarith
  have hij2 : (i : ℝ) < (j : ℝ) := by exact_mod_cast hij
  have hba : (0:ℝ) < b - a := sub_pos.mpr hab
  have hstep : (0:ℝ) < (b - a) / ((n:ℝ) - 1) := div_pos hba hden
  have hmul := mul_lt_mul_of_pos_right hij2 hstep
  calc a + (i:ℝ) * (b - a) / ((n:ℝ)-1) = a + (i:ℝ) * ((b - a) / ((n:ℝ)-1)) := by ring
    _ < a + (j:ℝ) * ((b - a) / ((n:ℝ)-1)) := by linarith
    _ = a + (j:ℝ) * (b - a) / ((n:ℝ)-1) := by ring

theorem clip_bounds (lo hi x : ℝ) (h : lo ≤ hi) :
    lo ≤ clip lo hi x ∧ clip lo hi x ≤ hi :=
  ⟨le_min (le_max_right x lo) h, min_le_right _ _⟩

theorem uniform_filter1d_length (input : List ℝ) (size : ℕ) :
    (uniform_filter1d input size).length = input.length := by
  simp [uniform_filter1d]

theorem uniform_filter1d_mem_bounds (input : List ℝ) (size : ℕ) (hsize : 0 < size)
    (lo hi : ℝ) (hb : ∀ x ∈ input, lo ≤ x ∧ x ≤ hi) :
    ∀ v ∈ uniform_filter1d input size, lo ≤ v ∧ v ≤ hi := by
  intro v hv
  unfold uniform_filter1d at hv
  rw [List.mem_map] at hv
  obtain ⟨i, hi_mem, rfl⟩ := hv
  rw [List.mem_range] at hi_mem
  have hlen : 0 < input.length := Nat.pos_of_ne_zero (by omega)
  have hterm : ∀ k ∈ Finset.range size,
      lo ≤ input.getD (reflectIdx input.length ((i : ℤ) - (size / 2 : ℕ) + (k : ℤ))) 0 ∧
      input.getD (reflectIdx input.length ((i : ℤ) - (size / 2 : ℕ) + (k : ℤ))) 0 ≤ hi := by
    intro k _
    have hidx_lt : reflectIdx input.length ((i : ℤ) - (size / 2 : ℕ) + (k : ℤ)) < input.length :=
      reflectIdx_lt _ hlen _
    rw [List.getD_eq_getElem _ _ hidx_lt]
    exact hb _ (List.getElem_mem _)
  have hsum_lo : (size : ℝ) * lo ≤ ∑ k ∈ Finset.range size,
      input.getD (reflectIdx input.length ((i : ℤ) - (size / 2 : ℕ) + (k : ℤ))) 0 := by
    calc (size : ℝ) * lo = ∑ _k ∈ Finset.range size, lo := by
          rw [Finset.sum_const, Finset.card_range, nsmul_eq_mul]
      _ ≤ _ := Finset.sum_le_sum (fun k hk => (hterm k hk).1)
  have hsum_hi : (∑ k ∈ Finset.range size,
      input.getD (reflectIdx input.length ((i : ℤ) - (size / 2 : ℕ) + (k : ℤ))) 0)
      ≤ (size : ℝ) * hi := by
    calc _ ≤ ∑ _k ∈ Finset.range size, hi := Finset.sum_le_sum (fun k hk => (hterm k hk).2)
      _ = (size : ℝ) * hi := by rw [Finset.sum_const, Finset.card_range, nsmul_eq_mul]
  have hspos : (0:ℝ) < (size : ℝ) := by exact_mod_cast hsize
  constructor
  · rw [le_div_iff₀ hspos]
    linarith
  · rw [div_le_iff₀ hspos]
    linarith

theorem getD_zipWith (f : ℝ → ℝ → ℝ) (as bs : List ℝ) (i : ℕ)
    (ha : i < as.length) (hb : i < bs.length) :
    (List.zipWith f as bs).getD i 0 = f (as.getD i 0) (bs.getD i 0) := by
  have hz : i < (List.zipWith f as bs).length := by
    rw [List.length_zipWith]
    omega
  rw [List.getD_eq_getElem _ _ hz, List.getD_eq_getElem _ _ ha, List.getD_eq_getElem _ _ hb]
  exact List.getElem_zipWith

theorem traj_fst (i : ℤ) (n : ℕ) :
    (generate_trajectory_through_landscape i n).1 = linspace 0 180 n := rfl

theorem traj_snd (i : ℤ) (n : ℕ) :
    (generate_trajectory_through_landscape i n).2.1 =
      uniform_filter1d (((linspace 0 180 n).map (y_raw i)).map (clip 0.2 1.8)) 10 := rfl

theorem traj_thd (i : ℤ) (n : ℕ) :
    (generate_trajectory_through_landscape i n).2.2 =
      List.zipWith (fun tk yk => constraint_surface tk yk + 0.15) (linspace 0 180 n)
        (uniform_filter1d (((linspace 0 180 n).map (y_raw i)).map (clip 0.2 1.8)) 10) := rfl

theorem traj_single (i : ℤ) :
    generate_trajectory_through_landscape i 1 =
      ([0], [clip 0.2 1.8 (y_raw i 0)],
        [constraint_surface 0 (clip 0.2 1.8 (y_raw i 0)) + 0.15]) := by
  have ht : linspace 0 180 1 = [0] := by
    unfold linspace
    norm_num
  have hy : uniform_filter1d [clip 0.2 1.8 (y_raw i 0)] 10
      = [clip 0.2 1.8 (y_raw i 0)] := by
    unfold uniform_filter1d
    have hr : List.range 1 = [0] := rfl
    simp only [List.length_singleton, hr, List.map_cons, List.map_nil,
      reflectIdx_one, List.getD_cons_zero]
    rw [Finset.sum_const, Finset.card_range, nsmul_eq_mul]
    norm_num
  show (let t := linspace 0 180 1
        let y := uniform_filter1d ((t.map (y_raw i)).map (clip 0.2 1.8)) 10
        let z := List.zipWith (fun tk yk => constraint_surface tk yk + 0.15) t y
        (t, y, z)) = _
  rw [ht]
  simp only [List.map_cons, List.map_nil]
  rw [hy]
  simp [List.zipWith]



/-- C1 (counterexample): at trajectory index 2 and point count `N = 1` — a
positive count — the returned axis-1 sequence is `[0]`, so its last value is
`0`, not the interval maximum `180`. -/
theorem C1_counterexample :
    (generate_trajectory_through_landscape 2 1).1.getLast? = some 0 ∧ (0:ℝ) ≠ 180 := by
  constructor
  · rw [traj_fst]
    unfold linspace
    norm_num
  · norm_num

/-- C1 (amended: for every point count `N ≥ 2` rather than every positive
`N`): for every valid trajectory index `i` (0-4) and every `N ≥ 2`, the
axis-1 sequence has length `N`, is strictly increasing, starts at the fixed
interval minimum `0` and ends at the fixed interval maximum `180`. -/
theorem C1_axis1_properties (i : ℤ) (n : ℕ) (_h0 : 0 ≤ i) (_h4 : i ≤ 4) (hn : 2 ≤ n) :
    (generate_trajectory_through_landscape i n).1.length = n ∧
    (generate_trajectory_through_landscape i n).1.Pairwise (· < ·) ∧
    (generate_trajectory_through_landscape i n).1.head? = some 0 ∧
    (generate_trajectory_through_landscape i n).1.getLast? = some 180 := by
  rw [traj_fst]
  exact ⟨linspace_length 0 180 n, linspace_pairwise 0 180 n (by norm_num) hn,
    linspace_head 0 180 n (by omega), linspace_getLast 0 180 n hn⟩

/-- C1 witness: the amended statement instantiated at the spec scenario
`i = 2`, `N = 200`. -/
theorem C1_axis1_properties_witness :
    (generate_trajectory_through_landscape 2 200).1.length = 200 ∧
    (generate_trajectory_through_landscape 2 200).1.Pairwise (· < ·) ∧
    (generate_trajectory_through_landscape 2 200).1.head? = some 0 ∧
    (generate_trajectory_through_landscape 2 200).1.getLast? = some 180 :=
  C1_axis1_properties 2 200 (by decide) (by decide) (by decide)

/-- C2: for every valid trajectory index `i` (0-4) and positive point count
`N`, every axis-2 value returned by the trajectory generator — after clamping
and after the moving-average smoothing pass — lies in `[0.2, 1.8]`. -/
theorem C2_axis2_clamped (i : ℤ) (n : ℕ) (_h0 : 0 ≤ i) (_h4 : i ≤ 4) (_hn : 0 < n)
    (v : ℝ) (hv : v ∈ (generate_trajectory_through_landscape i n).2.1) :
    0.2 ≤ v ∧ v ≤ 1.8 := by
  rw [traj_snd] at hv
  refine uniform_filter1d_mem_bounds _ 10 (by norm_num) 0.2 1.8 ?_ v hv
  intro x hx
  rw [List.mem_map] at hx
  obtain ⟨w, hw_mem, rfl⟩ := hx
  exact clip_bounds 0.2 1.8 w (by norm_num)

/-- C2 witness: at `i = 2`, `N = 1` the axis-2 sequence is the singleton
containing the clamped sample at `t = 0`, and that concrete member is inside
`[0.2, 1.8]`. -/
theorem C2_axis2_clamped_witness :
    0.2 ≤ clip 0.2 1.8 (y_raw 2 0) ∧ clip 0.2 1.8 (y_raw 2 0) ≤ 1.8 :=
  C2_axis2_clamped 2 1 (by decide) (by decide) (by decide) (clip 0.2 1.8 (y_raw 2 0))
    (by simp [traj_single])

/-- C3: the topology-variant surface is exactly the sum of five closed-form
terms in the normalized coordinates `t/30` and `y*2`, and the radial falloff
term carries the literal combined coefficient `-0.0075 = -0.15 * 0.05`. -/
theorem C3_surface_five_terms (t y : ℝ) :
    constraint_surface t y =
      0.5 * Real.sin (t / 30 * 0.8) * Real.cos (y * 2 * 0.6)
      + 0.3 * Real.cos (t / 30 * 1.5 + y * 2 * 1.2)
      + 0.2 * Real.sin (t / 30 * 3.0 - y * 2 * 2.0)
      + 0.25 * Real.sin (t / 30 * 2.0) * Real.sin (y * 2 * 1.5)
      + (-0.0075) * ((t / 30 - 3) ^ 2 + (y * 2 - 2) ^ 2) := by
  unfold constraint_surface
  ring_nf

/-- C5: each returned elevation value equals the surface evaluated at the
corresponding returned (axis-1, axis-2) pair, plus the fixed vertical offset
`0.15`. -/
theorem C5_elevation_offset (i : ℤ) (n : ℕ) (idx : ℕ)
    (_h0 : 0 ≤ i) (_h4 : i ≤ 4) (hidx : idx < n) :
    (generate_trajectory_through_landscape i n).2.2.getD idx 0 =
      constraint_surface ((generate_trajectory_through_landscape i n).1.getD idx 0)
        ((generate_trajectory_through_landscape i n).2.1.getD idx 0) + 0.15 := by
  rw [traj_fst, traj_snd, traj_thd]
  refine getD_zipWith _ _ _ idx ?_ ?_
  · rw [linspace_length]
    exact hidx
  · rw [uniform_filter1d_length, List.length_map, List.length_map, linspace_length]
    exact hidx

/-- C5 witness: instantiated at `i = 2`, `N = 200`, index `0`. -/
theorem C5_elevation_offset_witness :
    (generate_trajectory_through_landscape 2 200).2.2.getD 0 0 =
      constraint_surface ((generate_trajectory_through_landscape 2 200).1.getD 0 0)
        ((generate_trajectory_through_landscape 2 200).2.1.getD 0 0) + 0.15 :=
  C5_elevation_offset 2 200 0 (by decide) (by decide) (by decide)

/-- C7: for every trajectory index, point count `N = 1` produces a
single-point trajectory without error: the axis-1 sequence is `[0]`, the
axis-2 sequence is the single clamped sample (the smoothing pass degenerates
to the identity on a single sample), and the elevation is the surface value
plus `0.15`. -/
theorem C7_single_point (i : ℤ) :
    generate_trajectory_through_landscape i 1 =
      ([0], [clip 0.2 1.8 (y_raw i 0)],
        [constraint_surface 0 (clip 0.2 1.8 (y_raw i 0)) + 0.15]) :=
  traj_single i

/-- C8: the surface generators of both variants are deterministic — two
calls on identical input arrays yield identical output arrays (the output is
a pure function of the inputs and the fixed constants). -/
theorem C8_deterministic (ps qs : List (ℝ × ℝ)) (h : ps = qs) :
    ps.map (fun p => constraint_surface p.1 p.2)
        = qs.map (fun p => constraint_surface p.1 p.2) ∧
    ps.map (fun p => feltness_surface p.1 p.2)
        = qs.map (fun p => feltness_surface p.1 p.2) := by
  subst h
  exact ⟨rfl, rfl⟩

/-- C8 witness: two calls on the identical concrete input array `[(0, 1)]`. -/
theorem C8_deterministic_witness :
    [((0:ℝ), (1:ℝ))].map (fun p => constraint_surface p.1 p.2)
        = [((0:ℝ), (1:ℝ))].map (fun p => constraint_surface p.1 p.2) ∧
    [((0:ℝ), (1:ℝ))].map (fun p => feltness_surface p.1 p.2)
        = [((0:ℝ), (1:ℝ))].map (fun p => feltness_surface p.1 p.2) :=
  C8_deterministic [((0:ℝ), (1:ℝ))] [((0:ℝ), (1:ℝ))] rfl

/-- C10: the trajectory generator performs no input validation: for every
integer index — including indices outside 0-4 — and every positive point
count `N` it returns three sequences of equal length `N` by the same
closed-form formulas. -/
theorem C10_no_validation (i : ℤ) (n : ℕ) (_hn : 0 < n) :
    (generate_trajectory_through_landscape i n).1.length = n ∧
    (generate_trajectory_through_landscape i n).2.1.length = n ∧
    (generate_trajectory_through_landscape i n).2.2.length = n := by
  have h1 : (generate_trajectory_through_landscape i n).1.length = n := by
    rw [traj_fst, linspace_length]
  have h2 : (generate_trajectory_through_landscape i n).2.1.length = n := by
    rw [traj_snd, uniform_filter1d_length, List.length_map, List.length_map, linspace_length]
  have h3 : (generate_trajectory_through_landscape i n).2.2.length = n := by
    rw [traj_thd, List.length_zipWith, uniform_filter1d_length, List.length_map,
      List.length_map, linspace_length]
    exact min_self n
  exact ⟨h1, h2, h3⟩

/-- C10 witness: the out-of-range index `7` with `N = 3` still yields three
length-3 sequences. -/
theorem C10_no_validation_witness :
    (generate_trajectory_through_landscape 7 3).1.length = 3 ∧
    (generate_trajectory_through_landscape 7 3).2.1.length = 3 ∧
    (generate_trajectory_through_landscape 7 3).2.2.length = 3 :=
  C10_no_validation 7 3 (by decide)



theorem mul_abs_le_one (x z : ℝ) (hx1 : -1 ≤ x) (hx2 : x ≤ 1) (hz1 : -1 ≤ z) (hz2 : z ≤ 1) :
    -1 ≤ x * z ∧ x * z ≤ 1 := by
  constructor <;> nlinarith

theorem uncanny_dip_mem (e p : ℝ) : -0.3 ≤ uncanny_dip e p ∧ uncanny_dip e p ≤ 0 := by
  unfold uncanny_dip
  have harg : -((e - 0.6) ^ 2 / 0.05 + (p - 0.2) ^ 2 / 0.08) ≤ 0 :=
    neg_nonpos.mpr (by positivity)
  have hE1 : Real.exp (-((e - 0.6) ^ 2 / 0.05 + (p - 0.2) ^ 2 / 0.08)) ≤ 1 :=
    Real.exp_le_one_iff.mpr harg
  have hE0 : 0 < Real.exp (-((e - 0.6) ^ 2 / 0.05 + (p - 0.2) ^ 2 / 0.08)) := Real.exp_pos _
  constructor <;> nlinarith

theorem ava_peak_mem (e p : ℝ) : 0 ≤ ava_peak e p ∧ ava_peak e p ≤ 0.2 := by
  unfold ava_peak
  have harg : -((e - 0.85) ^ 2 / 0.03 + (p - 0.5) ^ 2 / 0.05) ≤ 0 :=
    neg_nonpos.mpr (by positivity)
  have hE1 : Real.exp (-((e - 0.85) ^ 2 / 0.03 + (p - 0.5) ^ 2 / 0.05)) ≤ 1 :=
    Real.exp_le_one_iff.mpr harg
  have hE0 : 0 < Real.exp (-((e - 0.85) ^ 2 / 0.03 + (p - 0.5) ^ 2 / 0.05)) := Real.exp_pos _
  constructor <;> nlinarith

theorem pet_peak_mem (e p : ℝ) : 0 ≤ pet_peak e p ∧ pet_peak e p ≤ 0.15 := by
  unfold pet_peak
  have harg : -((e - 0.6) ^ 2 / 0.04 + (p - 0.8) ^ 2 / 0.04) ≤ 0 :=
    neg_nonpos.mpr (by positivity)
  have hE1 : Real.exp (-((e - 0.6) ^ 2 / 0.04 + (p - 0.8) ^ 2 / 0.04)) ≤ 1 :=
    Real.exp_le_one_iff.mpr harg
  have hE0 : 0 < Real.exp (-((e - 0.6) ^ 2 / 0.04 + (p - 0.8) ^ 2 / 0.04)) := Real.exp_pos _
  constructor <;> nlinarith

theorem human_peak_mem (e p : ℝ) : 0 ≤ human_peak e p ∧ human_peak e p ≤ 0.3 := by
  unfold human_peak
  have harg : -((e - 0.95) ^ 2 / 0.02 + (p - 0.95) ^ 2 / 0.02) ≤ 0 :=
    neg_nonpos.mpr (by positivity)
  have hE1 : Real.exp (-((e - 0.95) ^ 2 / 0.02 + (p - 0.95) ^ 2 / 0.02)) ≤ 1 :=
    Real.exp_le_one_iff.mpr harg
  have hE0 : 0 < Real.exp (-((e - 0.95) ^ 2 / 0.02 + (p - 0.95) ^ 2 / 0.02)) := Real.exp_pos _
  constructor <;> nlinarith

theorem tool_valley_mem (e p : ℝ) : -0.1 ≤ tool_valley e p ∧ tool_valley e p ≤ 0 := by
  unfold tool_valley
  have harg : -((e - 0.1) ^ 2 / 0.05 + (p - 0.1) ^ 2 / 0.05) ≤ 0 :=
    neg_nonpos.mpr (by positivity)
  have hE1 : Real.exp (-((e - 0.1) ^ 2 / 0.05 + (p - 0.1) ^ 2 / 0.05)) ≤ 1 :=
    Real.exp_le_one_iff.mpr harg
  have hE0 : 0 < Real.exp (-((e - 0.1) ^ 2 / 0.05 + (p - 0.1) ^ 2 / 0.05)) := Real.exp_pos _
  constructor <;> nlinarith

theorem ripples_mem (e p : ℝ) : -0.08 ≤ ripples e p ∧ ripples e p ≤ 0.08 := by
  unfold ripples
  have h1 := Real.neg_one_le_sin (e * 8)
  have h2 := Real.sin_le_one (e * 8)
  have h3 := Real.neg_one_le_cos (p * 6)
  have h4 := Real.cos_le_one (p * 6)
  have h5 := Real.neg_one_le_sin (e * 12 + p * 10)
  have h6 := Real.sin_le_one (e * 12 + p * 10)
  obtain ⟨hp1, hp2⟩ := mul_abs_le_one _ _ h1 h2 h3 h4
  constructor <;> nlinarith

/-- C9: over the rendered domain `t ∈ [0, 180]`, `y ∈ [0, 2]`, the
topology-variant surface value lies within the fixed plot elevation limits
`[-1.5, 1.5]`. -/
theorem C9_surface_within_zlim (t y : ℝ)
    (ht0 : 0 ≤ t) (ht1 : t ≤ 180) (hy0 : 0 ≤ y) (hy1 : y ≤ 2) :
    -1.5 ≤ constraint_surface t y ∧ constraint_surface t y ≤ 1.5 := by
  have hdef : constraint_surface t y =
      0.5 * Real.sin (t / 30.0 * 0.8) * Real.cos (y * 2.0 * 0.6)
        + 0.3 * Real.cos (t / 30.0 * 1.5 + y * 2.0 * 1.2)
        + 0.2 * Real.sin (t / 30.0 * 3.0 - y * 2.0 * 2.0)
        + 0.25 * Real.sin (t / 30.0 * 2.0) * Real.sin (y * 2.0 * 1.5)
        + -0.15 * ((t / 30.0 - 3.0) ^ 2 + (y * 2.0 - 2.0) ^ 2) * 0.05 := by
    unfold constraint_surface
    simp only []
  have hs1l := Real.neg_one_le_sin (t / 30.0 * 0.8)
  have hs1u := Real.sin_le_one (t / 30.0 * 0.8)
  have hc1l := Real.neg_one_le_cos (y * 2.0 * 0.6)
  have hc1u := Real.cos_le_one (y * 2.0 * 0.6)
  have hc2l := Real.neg_one_le_cos (t / 30.0 * 1.5 + y * 2.0 * 1.2)
  have hc2u := Real.cos_le_one (t / 30.0 * 1.5 + y * 2.0 * 1.2)
  have hs3l := Real.neg_one_le_sin (t / 30.0 * 3.0 - y * 2.0 * 2.0)
  have hs3u := Real.sin_le_one (t / 30.0 * 3.0 - y * 2.0 * 2.0)
  have hs4l := Real.neg_one_le_sin (t / 30.0 * 2.0)
  have hs4u := Real.sin_le_one (t / 30.0 * 2.0)
  have hs5l := Real.neg_one_le_sin (y * 2.0 * 1.5)
  have hs5u := Real.sin_le_one (y * 2.0 * 1.5)
  obtain ⟨hp1l, hp1u⟩ := mul_abs_le_one _ _ hs1l hs1u hc1l hc1u
  obtain ⟨hp2l, hp2u⟩ := mul_abs_le_one _ _ hs4l hs4u hs5l hs5u
  have hta : (0:ℝ) ≤ t / 30.0 := by positivity
  have htb : t / 30.0 ≤ 6 := by linarith
  have h9 : (t / 30.0 - 3.0) ^ 2 ≤ 9 := by nlinarith
  have h4sq : (y * 2.0 - 2.0) ^ 2 ≤ 4 := by nlinarith
  have hq1 : (0:ℝ) ≤ (t / 30.0 - 3.0) ^ 2 := by positivity
  have hq2 : (0:ℝ) ≤ (y * 2.0 - 2.0) ^ 2 := by positivity
  rw [hdef]
  constructor <;> linarith

/-- C9 witness: the bound at the concrete domain point `t = 30`, `y = 1`. -/
theorem C9_surface_within_zlim_witness :
    -1.5 ≤ constraint_surface 30 1 ∧ constraint_surface 30 1 ≤ 1.5 :=
  C9_surface_within_zlim 30 1 (by norm_num) (by norm_num) (by norm_num) (by norm_num)

/-- C6: in the feltness variant the surface value in the "human friend"
region `(0.95, 0.95)` strictly exceeds the value in the "tool" region
`(0.05, 0.05)`. -/
theorem C6_human_friend_exceeds_tool :
    feltness_surface 0.05 0.05 < feltness_surface 0.95 0.95 := by
  have hb1 : Feltness.base 0.05 0.05 = 0.03 := by unfold Feltness.base; norm_num
  have hs1 : synergy 0.05 0.05 = 0.00125 := by unfold synergy; norm_num
  have hb2 : Feltness.base 0.95 0.95 = 0.57 := by unfold Feltness.base; norm_num
  have hs2 : synergy 0.95 0.95 = 0.45125 := by unfold synergy; norm_num
  have hh2 : human_peak 0.95 0.95 = 0.3 := by
    unfold human_peak
    norm_num
  obtain ⟨hu1a, hu1b⟩ := uncanny_dip_mem 0.05 0.05
  obtain ⟨ha1a, ha1b⟩ := ava_peak_mem 0.05 0.05
  obtain ⟨hp1a, hp1b⟩ := pet_peak_mem 0.05 0.05
  obtain ⟨hh1a, hh1b⟩ := human_peak_mem 0.05 0.05
  obtain ⟨ht1a, ht1b⟩ := tool_valley_mem 0.05 0.05
  obtain ⟨hr1a, hr1b⟩ := ripples_mem 0.05 0.05
  obtain ⟨hu2a, hu2b⟩ := uncanny_dip_mem 0.95 0.95
  obtain ⟨ha2a, ha2b⟩ := ava_peak_mem 0.95 0.95
  obtain ⟨hp2a, hp2b⟩ := pet_peak_mem 0.95 0.95
  obtain ⟨ht2a, ht2b⟩ := tool_valley_mem 0.95 0.95
  obtain ⟨hr2a, hr2b⟩ := ripples_mem 0.95 0.95
  unfold feltness_surface
  rw [hb1, hs1, hb2, hs2, hh2]
  linarith

theorem uncanny_dip_gaussian : IsGaussianTerm uncanny_dip :=
  ⟨-0.3, 0.6, 0.05, 0.2, 0.08, fun a b => by unfold uncanny_dip; ring⟩

theorem ava_peak_gaussian : IsGaussianTerm ava_peak :=
  ⟨0.2, 0.85, 0.03, 0.5, 0.05, fun a b => by unfold ava_peak; ring⟩

theorem pet_peak_gaussian : IsGaussianTerm pet_peak :=
  ⟨0.15, 0.6, 0.04, 0.8, 0.04, fun a b => by unfold pet_peak; ring⟩

theorem human_peak_gaussian : IsGaussianTerm human_peak :=
  ⟨0.3, 0.95, 0.02, 0.95, 0.02, fun a b => by unfold human_peak; ring⟩

theorem tool_valley_gaussian : IsGaussianTerm tool_valley :=
  ⟨-0.1, 0.1, 0.05, 0.1, 0.05, fun a b => by unfold tool_valley; ring⟩

theorem base_not_gaussian : ¬ IsGaussianTerm Feltness.base := by
  rintro ⟨A, ca, wa, cb, wb, h⟩
  have h1 := h 1 0
  have h2 := h (-1) 0
  have hb1 : Feltness.base 1 0 = 0.3 := by unfold Feltness.base; norm_num
  have hb2 : Feltness.base (-1) 0 = -0.3 := by unfold Feltness.base; norm_num
  rw [hb1] at h1
  rw [hb2] at h2
  have hE1 : 0 < Real.exp (-(((1:ℝ) - ca) ^ 2 / wa + ((0:ℝ) - cb) ^ 2 / wb)) := Real.exp_pos _
  have hE2 : 0 < Real.exp (-((((-1):ℝ) - ca) ^ 2 / wa + ((0:ℝ) - cb) ^ 2 / wb)) := Real.exp_pos _
  have hA : 0 < A := by nlinarith
  nlinarith

theorem synergy_not_gaussian : ¬ IsGaussianTerm synergy := by
  rintro ⟨A, ca, wa, cb, wb, h⟩
  have h1 := h 1 1
  have h2 := h 1 (-1)
  have hb1 : synergy 1 1 = 0.5 := by unfold synergy; norm_num
  have hb2 : synergy 1 (-1) = -0.5 := by unfold synergy; norm_num
  rw [hb1] at h1
  rw [hb2] at h2
  have hE1 : 0 < Real.exp (-(((1:ℝ) - ca) ^ 2 / wa + ((1:ℝ) - cb) ^ 2 / wb)) := Real.exp_pos _
  have hE2 : 0 < Real.exp (-(((1:ℝ) - ca) ^ 2 / wa + (((-1):ℝ) - cb) ^ 2 / wb)) := Real.exp_pos _
  have hA : 0 < A := by nlinarith
  nlinarith

theorem ripples_not_gaussian : ¬ IsGaussianTerm ripples := by
  rintro ⟨A, ca, wa, cb, wb, h⟩
  have h0 := h 0 0
  have hval : ripples 0 0 = 0 := by
    unfold ripples
    norm_num
  rw [hval] at h0
  have hA : A = 0 := by
    rcases mul_eq_zero.mp h0.symm with hz | hz
    · exact hz
    · exact absurd hz (Real.exp_ne_zero _)
  have hpi := h (Real.pi / 16) 0
  rw [hA, zero_mul] at hpi
  have hpos : 0 < ripples (Real.pi / 16) 0 := by
    unfold ripples
    have h8 : Real.pi / 16 * 8 = Real.pi / 2 := by ring
    have h12 : Real.pi / 16 * 12 + (0:ℝ) * 10 = Real.pi - Real.pi / 4 := by ring
    have h6 : ((0:ℝ)) * 6 = 0 := by norm_num
    rw [h8, h12, h6, Real.sin_pi_div_two, Real.sin_pi_sub, Real.sin_pi_div_four,
      Real.cos_zero]
    positivity
  linarith

/-- C4 (counterexample): the feltness surface is the sum of its eight source
terms, and five of those terms — not four — are each localized Gaussian-shaped
bump/dip terms of the stated form, so "exactly 4" is false. -/
theorem C4_counterexample :
    (∀ e p : ℝ, feltness_surface e p =
      Feltness.base e p + synergy e p + uncanny_dip e p + ava_peak e p + pet_peak e p
        + human_peak e p + tool_valley e p + ripples e p) ∧
    IsGaussianTerm uncanny_dip ∧ IsGaussianTerm ava_peak ∧ IsGaussianTerm pet_peak ∧
    IsGaussianTerm human_peak ∧ IsGaussianTerm tool_valley :=
  ⟨fun _ _ => rfl, uncanny_dip_gaussian, ava_peak_gaussian, pet_peak_gaussian,
    human_peak_gaussian, tool_valley_gaussian⟩

/-- C4 (amended: exactly 5 Gaussian terms, not 4): the feltness-variant
surface is the sum of exactly 8 additive closed-form terms, of which exactly
5 (the uncanny dip, Ava peak, pet peak, human peak, and tool valley) are
localized Gaussian-shaped terms of the form
`amplitude * exp(-((a-center_a)^2/width_a + (b-center_b)^2/width_b))`, while
the remaining 3 (base, synergy, ripples) are not of that form. -/
theorem C4_eight_terms_five_gaussian :
    (∀ e p : ℝ, feltness_surface e p =
      Feltness.base e p + synergy e p + uncanny_dip e p + ava_peak e p + pet_peak e p
        + human_peak e p + tool_valley e p + ripples e p) ∧
    (IsGaussianTerm uncanny_dip ∧ IsGaussianTerm ava_peak ∧ IsGaussianTerm pet_peak ∧
      IsGaussianTerm human_peak ∧ IsGaussianTerm tool_valley) ∧
    (¬ IsGaussianTerm Feltness.base ∧ ¬ IsGaussianTerm synergy ∧
      ¬ IsGaussianTerm ripples) :=
  ⟨fun _ _ => rfl,
    ⟨uncanny_dip_gaussian, ava_peak_gaussian, pet_peak_gaussian,
      human_peak_gaussian, tool_valley_gaussian⟩,
    ⟨base_not_gaussian, synergy_not_gaussian, ripples_not_gaussian⟩⟩

end
